import Mathlib

/-!
Shallow embedding of `app_emotion.py` (emotion-aware chat companion).

The embedding models the pure logic of the source file:
* the model-discovery fallback cascade (`pick_best_model`, the trial-order
  construction and retry loop of `safe_chat_completion`),
* the keyword emotion classifier (`detect_emotion` over `EMOTION_LEX`),
* intent and risk scoring (`analyze_intent_and_risk`),
* intervention routing (`INTERVENTION_ROUTER`, `choose_intervention`),
* the case-formulation accumulator (`infer_case_formulation`),
* and the tagged-output extractor described by the design document
  (not present in the Python source).

External effects are modelled explicitly: the availability query is an
`Option (List String)` (`none` = the listing raised), and the per-candidate
generation call is an oracle `String → Option String` (`none` = the call
raised, `some t` = the call returned content `t`).  Python `str.strip()` is
`trimString`, substring containment (`in`) is `strContains`, and `dict.get`
is association-list lookup.
-/

/-- `needle` begins `hay` (elementwise). -/
def startsWithList : List Char → List Char → Bool
  | [], _ => true
  | _ :: _, [] => false
  | a :: as, b :: bs => a = b && startsWithList as bs

/-- `needle` occurs contiguously somewhere in `hay`. -/
def occursIn (needle : List Char) : List Char → Bool
  | [] => startsWithList needle []
  | c :: cs => startsWithList needle (c :: cs) || occursIn needle cs

/-- Python `needle in haystack` substring test. -/
def strContains (haystack needle : String) : Bool :=
  occursIn needle.data haystack.data

/-- Python `str.lower()` (ASCII case folding; the keyword tables are
lower-case ASCII and CJK, which is unaffected). -/
def lowerStr (s : String) : String :=
  String.mk (s.data.map Char.toLower)

/-- Python `str.strip()` on a character list. -/
def trimChars (l : List Char) : List Char :=
  ((l.dropWhile Char.isWhitespace).reverse.dropWhile Char.isWhitespace).reverse

/-- Python `str.strip()`. -/
def trimString (s : String) : String :=
  String.mk (trimChars s.data)

/-- `PREFERRED_MODELS` (app_emotion.py lines 50–58). -/
def PREFERRED_MODELS : List String :=
  ["gpt-5", "gpt-5-mini", "gpt-4.1", "gpt-4.1-mini", "gpt-4o", "gpt-4o-mini", "gpt-4-turbo"]

/-- `list_available_models_safely` (lines 60–67): on success the sorted id
list, on exception (`query = none`) the empty list. -/
def list_available_models_safely (query : Option (List String)) : List String :=
  match query with
  | some ids => List.insertionSort (· ≤ ·) ids
  | none => []

/-- `pick_best_model` (lines 69–75): first preferred model present in
`available_ids`; else the top preference. -/
def pick_best_model (available_ids : List String) : String :=
  if available_ids ≠ [] then
    match PREFERRED_MODELS.find? (fun m => decide (m ∈ available_ids)) with
    | some m => m
    | none => PREFERRED_MODELS.getD 0 ""
  else PREFERRED_MODELS.getD 0 ""

/-- The trial-order construction of `safe_chat_completion` (lines 84–91):
the best pick (when truthy) followed by every preferred model not already
included. -/
def trial_order (available : List String) : List String :=
  let best := pick_best_model available
  let init := if best ≠ "" then [best] else []
  PREFERRED_MODELS.foldl (fun acc m => if m ∈ acc then acc else acc ++ [m]) init

/-- The retry loop of `safe_chat_completion` (lines 93–104): attempt each
candidate in order, stopping at the first generation call that does not
raise. -/
def tryModels (gen : String → Option String) : List String → Option (String × String)
  | [] => none
  | m :: rest =>
    match gen m with
    | some t => some (t, m)
    | none => tryModels gen rest

/-- The fixed fallback text of `safe_chat_completion` (lines 106–109). -/
def friendly_text : String :=
  "Sorry, I ran into a model access or connectivity issue. Please try again later, or check the sidebar to see if gpt-4o / gpt-4o-mini are available."

/-- `safe_chat_completion` (lines 77–110).  `query` is the outcome of the
availability listing and `gen` the outcome of the generation call per model
id (the conversation payload and temperature are fixed inside `gen`).
Returns the stripped content of the first succeeding candidate paired with
that candidate, or the fallback text paired with `none`. -/
def safe_chat_completion (gen : String → Option String) (query : Option (List String)) :
    String × Option String :=
  let available := list_available_models_safely query
  match tryModels gen (trial_order available) with
  | some (t, m) => (trimString t, some m)
  | none => (friendly_text, none)

/-- `EMOTION_LEX` (lines 115–121), in the source's insertion order. -/
def EMOTION_LEX : List (String × List String) :=
  [("anxiety", ["anxious","panic","panicking","nervous","worried","pressure","stressed","overthinking","overwhelm","tense","afraid","scared","焦慮","緊張","擔心","慌"]),
   ("sadness", ["sad","lonely","upset","tired","hurt","empty","numb","down","blue","depressed","cry","crying","loss","grief","難過","孤單","失落","低落","想哭","空"]),
   ("anger",   ["angry","frustrated","irritated","mad","furious","rage","annoyed","resentful","生氣","憤怒","不爽"]),
   ("shame",   ["ashamed","shame","embarrassed","humiliated","guilty","worthless","not enough","failure","丟臉","羞愧","內疚","沒用","失敗者","很爛","很廢"]),
   ("calm",    ["happy","grateful","peaceful","content","okay","fine","relieved","light","平靜","放鬆","輕鬆","感謝","還好"])]

/-- `any(k in tl for k in kws)`: some keyword of the entry is contained. -/
def emoHit (tl : String) (kws : List String) : Bool :=
  kws.any (fun k => strContains tl k)

/-- `detect_emotion` (lines 131–136): label of the first `EMOTION_LEX`
entry with a keyword contained in the lowercased text, else `"neutral"`. -/
def detect_emotion (text : String) : String :=
  let tl := lowerStr text
  match EMOTION_LEX.find? (fun p => emoHit tl p.2) with
  | some p => p.1
  | none => "neutral"

/-- `analyze_intent_and_risk` (lines 138–156): keyword intent buckets and a
keyword-weighted risk score capped at 5. -/
def analyze_intent_and_risk (text : String) : String × Int :=
  let tl := lowerStr text
  let intent :=
    if ["what should i", "should i", "how do i", "how should i", "what can i do", "help me", "advise", "我要怎麼辦", "該不該", "怎麼做"].any (fun p => strContains tl p) then "help"
    else if ["i\x27m sorry", "my fault", "i shouldn\x27t", "i always mess up", "blame myself", "都是我的錯", "我很糟", "我很爛", "我很廢"].any (fun p => strContains tl p) then "self-blame"
    else if ["whatever", "forget it", "no point", "doesn\x27t matter", "算了", "都沒差", "懶得講"].any (fun p => strContains tl p) then "avoid"
    else if ["why am i", "why do i", "i wonder", "maybe i", "i want to understand", "為什麼我", "我是不是", "我在想"].any (fun p => strContains tl p) then "explore"
    else "venting"
  let risk0 : Int := 0
  let risk1 := if ["disappear", "give up on life", "i don\x27t want to be here", "想消失", "不想在這"].any (fun w => strContains tl w) then risk0 + 2 else risk0
  let risk2 := if ["die", "death", "kill myself", "suicide", "hurt myself", "自殺", "想死", "傷害自己"].any (fun w => strContains tl w) then risk1 + 3 else risk1
  let risk3 := if ["can\x27t sleep", "awake all night", "no appetite", "binge", "失眠", "沒胃口"].any (fun w => strContains tl w) then risk2 + 1 else risk2
  (intent, min risk3 5)

/-- One entry of the `INTERVENTIONS` table (lines 161–269). -/
structure InterventionData where
  name : String
  desc : String
  howto : List String
deriving DecidableEq, Repr

/-- `INTERVENTIONS` (lines 161–269), key → module data. -/
def INTERVENTIONS : List (String × InterventionData) :=
  [("CBT_THOUGHT_RECORD",
    ⟨"CBT Thought Record",
     "Clarify: situation → automatic thought → feeling → evidence for/against → balanced thought.",
     ["Write the situation in a single sentence.",
      "Write the automatic thought verbatim.",
      "List evidence for and against this thought."]⟩),
   ("DBT_TIPP",
    ⟨"DBT TIPP",
     "Short physiological resets for strong emotion.",
     ["Cool face/neck with water for 30–60s.",
      "60–120s of brisk movement.",
      "Paced breathing: inhale 4s, exhale 6s for ~2 min."]⟩),
   ("GROUNDING_54321",
    ⟨"5-4-3-2-1 Grounding",
     "Anchor attention in the present using senses.",
     ["Notice 5 things you can see.",
      "Notice 4 things you can touch.",
      "Notice 3 things you can hear."]⟩),
   ("BREATH_BOX",
    ⟨"Box Breathing 4-4-4-4",
     "Stabilize pace and heart rate.",
     ["Inhale 4s, hold 4s.",
      "Exhale 4s, hold 4s.",
      "Repeat 4 rounds."]⟩),
   ("SELF_COMPASSION",
    ⟨"Self-Compassion Script",
     "Talk to yourself like a close friend.",
     ["Name: “This is hard.”",
      "Normalize: “Struggle is human.”",
      "Wish: “May I be gentle with myself now.”"]⟩),
   ("DESC_SCRIPT",
    ⟨"DESC Boundary Script",
     "Describe–Express–Specify–Consequences.",
     ["Describe facts (no labels).",
      "Express impact/feeling.",
      "Specify a clear, doable request."]⟩),
   ("SLEEP_HYGIENE_MINI",
    ⟨"Sleep Hygiene (Mini)",
     "Tiny habits for tonight.",
     ["Fixed wake time; morning light 10–20 min.",
      "Reduce screens & caffeine 60 min before bed.",
      "Externalize worries on paper."]⟩),
   ("BODY_SCAN",
    ⟨"Mindful Body Scan",
     "Release tension head to toe.",
     ["Forehead → jaw → neck/shoulders relax.",
      "Chest → belly → back with slow breathing.",
      "Hips → legs → feet soften."]⟩),
   ("REFLECTIVE_QUESTION",
    ⟨"Reflective Question",
     "Perspective-taking to soften fusion.",
     ["If your closest friend were here, what would you tell them?",
      "Which part needs care right now: body, mind, or heart?",
      "What’s a 10-minute step that won’t make things worse?"]⟩),
   ("ACTION_STEP",
    ⟨"Tiny Action Plan",
     "A 10-minute micro-step to regain agency.",
     ["Pick something doable within 10 minutes.",
      "Decide when (within 24h).",
      "Define a visible \x27done\x27 signal."]⟩),
   ("GRATITUDE_PROMPT",
    ⟨"Gratitude Prompt",
     "Note three small good things.",
     ["List 3 small things you’re grateful for today.",
      "Add 1 sentence for why each matters."]⟩),
   ("EMOTIONAL_LABELING",
    ⟨"Emotional Labeling",
     "Name feelings to gently reduce intensity (no numbers).",
     ["Pick 1–2 words for the feeling (e.g., heavy, tight, tangled).",
      "Do one soothing breath/grounding round, then see if words shift.",
      "Optionally notice where it sits in the body (chest/stomach/throat)."]⟩)]

/-- `INTERVENTION_ROUTER` (lines 271–314), emotion → intent → pool. -/
def INTERVENTION_ROUTER : List (String × List (String × List String)) :=
  [("anxiety",
    [("venting",  ["GROUNDING_54321","BREATH_BOX","EMOTIONAL_LABELING","ACTION_STEP"]),
     ("help",     ["CBT_THOUGHT_RECORD","BREATH_BOX","ACTION_STEP"]),
     ("self-blame", ["SELF_COMPASSION","EMOTIONAL_LABELING","CBT_THOUGHT_RECORD"]),
     ("explore",  ["REFLECTIVE_QUESTION","EMOTIONAL_LABELING"]),
     ("avoid",    ["ACTION_STEP","BREATH_BOX"])]),
   ("sadness",
    [("venting",  ["SELF_COMPASSION","EMOTIONAL_LABELING","BODY_SCAN"]),
     ("help",     ["ACTION_STEP","GRATITUDE_PROMPT","SLEEP_HYGIENE_MINI"]),
     ("self-blame", ["SELF_COMPASSION","CBT_THOUGHT_RECORD"]),
     ("explore",  ["REFLECTIVE_QUESTION","GRATITUDE_PROMPT"]),
     ("avoid",    ["ACTION_STEP","BODY_SCAN"])]),
   ("anger",
    [("venting",  ["DBT_TIPP","EMOTIONAL_LABELING"]),
     ("help",     ["DESC_SCRIPT","ACTION_STEP"]),
     ("self-blame", ["SELF_COMPASSION","CBT_THOUGHT_RECORD"]),
     ("explore",  ["REFLECTIVE_QUESTION"]),
     ("avoid",    ["DBT_TIPP","ACTION_STEP"])]),
   ("shame",
    [("venting",  ["SELF_COMPASSION","EMOTIONAL_LABELING"]),
     ("help",     ["CBT_THOUGHT_RECORD","ACTION_STEP"]),
     ("self-blame", ["SELF_COMPASSION","REFLECTIVE_QUESTION"]),
     ("explore",  ["REFLECTIVE_QUESTION","GRATITUDE_PROMPT"]),
     ("avoid",    ["ACTION_STEP","BREATH_BOX"])]),
   ("calm",
    [("venting",  ["GRATITUDE_PROMPT","ACTION_STEP"]),
     ("help",     ["ACTION_STEP","DESC_SCRIPT"]),
     ("self-blame", ["SELF_COMPASSION"]),
     ("explore",  ["REFLECTIVE_QUESTION"]),
     ("avoid",    ["ACTION_STEP"])]),
   ("neutral",
    [("venting",  ["EMOTIONAL_LABELING","REFLECTIVE_QUESTION"]),
     ("help",     ["ACTION_STEP","CBT_THOUGHT_RECORD"]),
     ("self-blame", ["SELF_COMPASSION"]),
     ("explore",  ["REFLECTIVE_QUESTION","GRATITUDE_PROMPT"]),
     ("avoid",    ["ACTION_STEP","BREATH_BOX"])])]

/-- `INTERVENTION_ROUTER["neutral"]`. -/
def neutral_router : List (String × List String) :=
  [("venting",  ["EMOTIONAL_LABELING","REFLECTIVE_QUESTION"]),
   ("help",     ["ACTION_STEP","CBT_THOUGHT_RECORD"]),
   ("self-blame", ["SELF_COMPASSION"]),
   ("explore",  ["REFLECTIVE_QUESTION","GRATITUDE_PROMPT"]),
   ("avoid",    ["ACTION_STEP","BREATH_BOX"])]

/-- `INTERVENTION_ROUTER["neutral"]["venting"]`. -/
def neutral_venting : List String :=
  ["EMOTIONAL_LABELING","REFLECTIVE_QUESTION"]

/-- The pool lookup of `choose_intervention` (line 317):
`INTERVENTION_ROUTER.get(emotion, ROUTER["neutral"]).get(intent, ROUTER["neutral"]["venting"])`. -/
def route_pool (emotion intent : String) : List String :=
  let emoMap := (List.lookup emotion INTERVENTION_ROUTER).getD neutral_router
  (List.lookup intent emoMap).getD neutral_venting

/-- The somatic-first keys of `choose_intervention` (line 319). -/
def somatic_first : List String :=
  ["DBT_TIPP","BREATH_BOX","GROUNDING_54321","EMOTIONAL_LABELING"]

/-- `choose_intervention` (lines 316–322) with the nondeterminism of
`random.choice` made explicit: the list the final `random.choice` draws
from.  Every possible return value of the Python function is a member of
this list. -/
def choose_intervention_candidates (emotion intent : String) (risk_score : Int) : List String :=
  let pool := route_pool emotion intent
  if 3 ≤ risk_score then
    let priority := pool.filter (fun k => decide (k ∈ somatic_first))
    if priority ≠ [] then priority else pool
  else pool

/-- The working case formulation dictionary (lines 336–348). -/
structure CaseFormulation where
  themes : List String
  patterns : List String
  hypotheses : List String
deriving DecidableEq, Repr

/-- The `add_theme` / `add_pattern` / `add_hypo` helpers (lines 350–360):
append unless already present. -/
def addIfAbsent (l : List String) (x : String) : List String :=
  if x ∈ l then l else l ++ [x]

/-- `infer_case_formulation` (lines 327–392).  Python's `list(set(...))`
copy is modelled by `List.dedup` (same member set; the set's iteration
order is unspecified in Python). -/
def infer_case_formulation (user_text emotion intent : String)
    (prev_formulation : Option CaseFormulation) : CaseFormulation :=
  let tl := lowerStr user_text
  let cf0 : CaseFormulation :=
    match prev_formulation with
    | none => ⟨[], [], []⟩
    | some p => ⟨p.themes.dedup, p.patterns.dedup, p.hypotheses.dedup⟩
  let th := cf0.themes
  let th := if ["not enough","worthless","failure","我很糟","我很爛","我很廢","不夠好","沒價值"].any (fun k => strContains tl k) then addIfAbsent th "self-worth / adequacy" else th
  let th := if ["report","meeting","performance","deadline","考試","工作","上班","表現","績效"].any (fun k => strContains tl k) then addIfAbsent th "performance pressure" else th
  let th := if ["mom","mother","dad","father","爸","媽","父母","家人"].any (fun k => strContains tl k) then addIfAbsent th "family / early expectations" else th
  let th := if ["relationship","boyfriend","girlfriend","partner","男友","女友","感情","戀愛"].any (fun k => strContains tl k) then addIfAbsent th "relationships" else th
  let th := if ["tired","exhausted","burnout","burned out","好累","倦怠","撐不住"].any (fun k => strContains tl k) then addIfAbsent th "mood & energy" else th
  let pa := cf0.patterns
  let pa := if ["should","must","have to","一定要","應該","不能失誤","不可以犯錯","完美"].any (fun k => strContains tl k) then addIfAbsent pa "perfectionism / high standards" else pa
  let pa := if ["always","never","every time","每次","都這樣","總是"].any (fun k => strContains tl k) then addIfAbsent pa "overgeneralization" else pa
  let pa := if ["i\x27m the problem","都是我的錯","怪我","my fault","i ruin","我害的"].any (fun k => strContains tl k) then addIfAbsent pa "global self-criticism" else pa
  let pa := if intent = "self-blame" then addIfAbsent pa "self-blame focus" else pa
  let hy := cf0.hypotheses
  let hy := if "self-worth / adequacy" ∈ th ∧ "perfectionism / high standards" ∈ pa then addIfAbsent hy "possible core belief: \x27I must perform well to be worthy / acceptable.\x27" else hy
  let hy := if "family / early expectations" ∈ th then addIfAbsent hy "early family messages may be shaping how you evaluate yourself now." else hy
  let hy := if emotion = "shame" then addIfAbsent hy "shame may be activated when you feel \x27seen\x27 as imperfect." else hy
  ⟨th, pa, hy⟩

/-!
The tagged-output extractor.  The design document describes it
(`[MODE:d]` markers in generated text) but the Python source in the
repository snapshot does not contain it, so it is modelled from the
specification text.
-/

/-- The eight characters of a mode tag with digit character `d`:
`[MODE:` d `]`. -/
def tagChars (d : Char) : List Char :=
  ['[', 'M', 'O', 'D', 'E', ':', d, ']']

/-- Modelled from the spec: recognise a mode tag at the head of the
character list (`open-bracket, fixed keyword, colon, one digit,
close-bracket`); yields the digit's value. -/
def tagAt (l : List Char) : Option Nat :=
  match l with
  | c0 :: c1 :: c2 :: c3 :: c4 :: c5 :: c6 :: c7 :: _ =>
    if c0 = '[' ∧ c1 = 'M' ∧ c2 = 'O' ∧ c3 = 'D' ∧ c4 = 'E' ∧ c5 = ':' ∧ c6.isDigit ∧ c7 = ']'
    then some (c6.toNat - 48) else none
  | _ => none

/-- Modelled from the spec: the digit of the first mode tag in the text,
`none` when no tag occurs. -/
def findModeTag : List Char → Option Nat
  | [] => none
  | c :: cs =>
    match tagAt (c :: cs) with
    | some n => some n
    | none => findModeTag cs

/-- Fuel-driven worker for `stripTags`; the fuel never runs out when it
starts at the list's length, since every step consumes at least one
character. -/
def stripTagsFuel : Nat → List Char → List Char
  | 0, _ => []
  | _, [] => []
  | fuel + 1, c :: cs =>
    if (tagAt (c :: cs)).isSome then stripTagsFuel fuel (cs.drop 7)
    else c :: stripTagsFuel fuel cs

/-- Modelled from the spec: remove every mode-tag occurrence from the
text (`strip globally`). -/
def stripTags (l : List Char) : List Char :=
  stripTagsFuel l.length l

/-- Modelled from the spec: the tagged-output extractor
(`resolve_and_generate`'s second stage, §4.2): decide the mode from the
first tag, strip all tags, trim surrounding whitespace; with no tag the
trimmed text is returned with the previous mode. -/
def extract_mode (raw : String) (prev_mode : Nat) : String × Nat :=
  match findModeTag raw.data with
  | some n => (String.mk (trimChars (stripTags raw.data)), n)
  | none => (String.mk (trimChars raw.data), prev_mode)

/-- A mode tag (with a true digit) occurs somewhere in `l`. -/
def ContainsTag (l : List Char) : Prop :=
  ∃ a d b, d.isDigit = true ∧ l = a ++ tagChars d ++ b

/-- `d` heads the first mode tag of `l`: some decomposition exhibits the
tag, and no tag fits inside the characters strictly before its close
bracket. -/
def FirstTag (l : List Char) (d : Char) : Prop :=
  ∃ a b, d.isDigit = true ∧ l = a ++ tagChars d ++ b ∧
    ¬ ContainsTag (l.take (a.length + 7))

/-!  Helper lemmas. -/

/-- `find?` returns the element at the first index satisfying the
predicate. -/
theorem find?_of_first {α : Type} (p : α → Bool) :
    ∀ (l : List α) (i : Nat) (hi : i < l.length),
      p (l.get ⟨i, hi⟩) = true →
      (∀ j (hj : j < l.length), j < i → p (l.get ⟨j, hj⟩) = false) →
      l.find? p = some (l.get ⟨i, hi⟩)
  | [], i, hi, _, _ => absurd hi (by simp)
  | a :: t, 0, _, hp, _ => by
    simp only [List.get] at hp ⊢
    simp [List.find?, hp]
  | a :: t, i + 1, hi, hp, hmin => by
    have ha : p a = false := hmin 0 (by simp) (Nat.succ_pos i)
    simp only [List.find?, ha]
    have ht := find?_of_first p t i (by simpa using hi) (by simpa using hp)
      (fun j hj hji => by
        have := hmin (j + 1) (by simpa using hj) (by omega)
        simpa using this)
    simpa using ht

/-- If every candidate's generation call fails, the retry loop fails. -/
theorem tryModels_eq_none (gen : String → Option String) :
    ∀ l : List String, (∀ m ∈ l, gen m = none) → tryModels gen l = none
  | [], _ => rfl
  | m :: rest, h => by
    have hm : gen m = none := h m (by simp)
    simp only [tryModels, hm]
    exact tryModels_eq_none gen rest (fun x hx => h x (by simp [hx]))

/-- The retry loop returns the outcome of the first succeeding candidate. -/
theorem tryModels_of_first (gen : String → Option String) :
    ∀ (l : List String) (i : Nat) (hi : i < l.length) (t : String),
      gen (l.get ⟨i, hi⟩) = some t →
      (∀ j (hj : j < l.length), j < i → gen (l.get ⟨j, hj⟩) = none) →
      tryModels gen l = some (t, l.get ⟨i, hi⟩)
  | [], i, hi, _, _, _ => absurd hi (by simp)
  | m :: rest, 0, _, t, hp, _ => by
    simp only [List.get] at hp ⊢
    simp [tryModels, hp]
  | m :: rest, i + 1, hi, t, hp, hmin => by
    have hm : gen m = none := hmin 0 (by simp) (Nat.succ_pos i)
    simp only [tryModels, hm]
    have ht := tryModels_of_first gen rest i (by simpa using hi) t (by simpa using hp)
      (fun j hj hji => by
        have := hmin (j + 1) (by simpa using hj) (by omega)
        simpa using this)
    simpa using ht

/-- The retry loop either succeeds on some member or every member fails. -/
theorem tryModels_total (gen : String → Option String) :
    ∀ l : List String,
      (∃ m t, m ∈ l ∧ gen m = some t ∧ tryModels gen l = some (t, m)) ∨
      ((∀ m ∈ l, gen m = none) ∧ tryModels gen l = none)
  | [] => Or.inr ⟨by simp, rfl⟩
  | m :: rest => by
    cases hm : gen m with
    | some t => exact Or.inl ⟨m, t, by simp, hm, by simp [tryModels, hm]⟩
    | none =>
      rcases tryModels_total gen rest with ⟨m', t', hmem, hg, he⟩ | ⟨hall, he⟩
      · exact Or.inl ⟨m', t', by simp [hmem], hg, by simp [tryModels, hm, he]⟩
      · refine Or.inr ⟨?_, by simp [tryModels, hm, he]⟩
        intro x hx
        rcases List.mem_cons.mp hx with h | h
        · exact h ▸ hm
        · exact hall x h

/-- Anything in the accumulator stays in the deduplicating fold of the
trial-order construction. -/
theorem foldl_dedup_mem :
    ∀ (l acc : List String) (x : String), x ∈ acc →
      x ∈ l.foldl (fun acc m => if m ∈ acc then acc else acc ++ [m]) acc
  | [], _, _, hx => hx
  | m :: rest, acc, x, hx => by
    simp only [List.foldl]
    by_cases hm : m ∈ acc
    · simp only [if_pos hm]
      exact foldl_dedup_mem rest acc x hx
    · simp only [if_neg hm]
      exact foldl_dedup_mem rest (acc ++ [m]) x (by simp [hx])

/-- The deduplicating fold keeps the accumulator duplicate-free. -/
theorem foldl_dedup_nodup :
    ∀ (l acc : List String), acc.Nodup →
      (l.foldl (fun acc m => if m ∈ acc then acc else acc ++ [m]) acc).Nodup
  | [], _, h => h
  | m :: rest, acc, h => by
    simp only [List.foldl]
    by_cases hm : m ∈ acc
    · simp only [if_pos hm]
      exact foldl_dedup_nodup rest acc h
    · simp only [if_neg hm]
      exact foldl_dedup_nodup rest (acc ++ [m]) (by simp [List.nodup_append, h, hm])

/-- The deduplicating fold only appends: the head of a non-empty
accumulator is preserved. -/
theorem foldl_dedup_head? :
    ∀ (l acc : List String), acc ≠ [] →
      (l.foldl (fun acc m => if m ∈ acc then acc else acc ++ [m]) acc).head? = acc.head?
  | [], _, _ => rfl
  | m :: rest, acc, hacc => by
    simp only [List.foldl]
    by_cases hm : m ∈ acc
    · simp only [if_pos hm]
      exact foldl_dedup_head? rest acc hacc
    · simp only [if_neg hm]
      rw [foldl_dedup_head? rest (acc ++ [m]) (by simp)]
      cases acc with
      | nil => exact absurd rfl hacc
      | cons a t => simp

/-- `pick_best_model` always answers with a preferred model. -/
theorem pick_best_model_mem (available : List String) :
    pick_best_model available ∈ PREFERRED_MODELS := by
  unfold pick_best_model
  split
  · cases hf : PREFERRED_MODELS.find? (fun m => decide (m ∈ available)) with
    | some m => simpa using List.mem_of_find?_eq_some hf
    | none => simp [PREFERRED_MODELS]
  · simp [PREFERRED_MODELS]

/-- Every preferred model id is a non-empty (truthy) string. -/
theorem pick_best_model_ne_empty (available : List String) :
    pick_best_model available ≠ "" := by
  have h := pick_best_model_mem available
  have : ∀ m ∈ PREFERRED_MODELS, m ≠ "" := by decide
  exact this _ h

/-- The best pick heads the trial order. -/
theorem trial_order_head (available : List String) :
    (trial_order available).head? = some (pick_best_model available) := by
  unfold trial_order
  simp only [if_pos (pick_best_model_ne_empty available)]
  rw [foldl_dedup_head? PREFERRED_MODELS [pick_best_model available] (by simp)]
  rfl

/-- Claim C1: for every conversation payload and temperature (absorbed into
the generation oracle `gen`) and every availability outcome, when the
generation call succeeds for the candidate at position `i` of the trial
order and fails for every earlier candidate, `safe_chat_completion` returns
that candidate's (stripped) text together with that candidate; when every
candidate in the trial order fails it returns the fixed fallback text and
no candidate. -/
theorem C1_resolver_first_success (gen : String → Option String)
    (query : Option (List String)) :
    (∀ (i : Nat) (hi : i < (trial_order (list_available_models_safely query)).length)
        (t : String),
      gen ((trial_order (list_available_models_safely query)).get ⟨i, hi⟩) = some t →
      (∀ j (hj : j < (trial_order (list_available_models_safely query)).length), j < i →
        gen ((trial_order (list_available_models_safely query)).get ⟨j, hj⟩) = none) →
      safe_chat_completion gen query =
        (trimString t, some ((trial_order (list_available_models_safely query)).get ⟨i, hi⟩))) ∧
    ((∀ m ∈ trial_order (list_available_models_safely query), gen m = none) →
      safe_chat_completion gen query = (friendly_text, none)) := by
  constructor
  · intro i hi t hsucc hfail
    have h := tryModels_of_first gen (trial_order (list_available_models_safely query))
      i hi t hsucc hfail
    simp [safe_chat_completion, h]
  · intro hall
    have h := tryModels_eq_none gen (trial_order (list_available_models_safely query)) hall
    simp [safe_chat_completion, h]

/-- Witness for C1 at a concrete oracle: the listing fails, the first two
preferred models fail, the third succeeds with text `" hi "`. -/
theorem C1_resolver_first_success_witness :
    safe_chat_completion (fun m => if m = "gpt-4.1" then some " hi " else none) none =
      ("hi", some "gpt-4.1") := by
  have h := (C1_resolver_first_success
      (fun m => if m = "gpt-4.1" then some " hi " else none) none).1 2 (by decide) " hi "
      (by decide)
      (fun j hj hji => by
        match j with
        | 0 => exact (by decide :
            (fun m => if m = "gpt-4.1" then some " hi " else none)
              ((trial_order (list_available_models_safely none)).get ⟨0, by decide⟩) = none)
        | 1 => exact (by decide :
            (fun m => if m = "gpt-4.1" then some " hi " else none)
              ((trial_order (list_available_models_safely none)).get ⟨1, by decide⟩) = none))
  exact h.trans (by decide)

/-- Claim C2: `safe_chat_completion` is total.  Failures of the
availability query (`query = none`) and of each generation call
(`gen m = none`) are values, never escaping exceptions; for every input the
function returns either a success drawn from the trial order or the
fallback text — nothing else. -/
theorem C2_resolver_total (gen : String → Option String) (query : Option (List String)) :
    list_available_models_safely none = [] ∧
    ((∃ m t, m ∈ trial_order (list_available_models_safely query) ∧ gen m = some t ∧
        safe_chat_completion gen query = (trimString t, some m)) ∨
      ((∀ m ∈ trial_order (list_available_models_safely query), gen m = none) ∧
        safe_chat_completion gen query = (friendly_text, none))) := by
  refine ⟨rfl, ?_⟩
  rcases tryModels_total gen (trial_order (list_available_models_safely query)) with
    ⟨m, t, hmem, hg, he⟩ | ⟨hall, he⟩
  · exact Or.inl ⟨m, t, hmem, hg, by simp [safe_chat_completion, he]⟩
  · exact Or.inr ⟨hall, by simp [safe_chat_completion, he]⟩

/-- Claim C3: for every availability set the trial order is non-empty and
duplicate-free. -/
theorem C3_trial_order_invariant (available : List String) :
    trial_order available ≠ [] ∧ (trial_order available).Nodup := by
  constructor
  · intro h
    have := trial_order_head available
    rw [h] at this
    simp at this
  · unfold trial_order
    apply foldl_dedup_nodup
    split <;> simp

/-- Claim C4: whenever the availability set meets the preference list, the
trial order starts with the member of the intersection occurring earliest
in `PREFERRED_MODELS`. -/
theorem C4_trial_order_best_first (available : List String) (i : Nat)
    (hi : i < PREFERRED_MODELS.length)
    (hmem : PREFERRED_MODELS.get ⟨i, hi⟩ ∈ available)
    (hmin : ∀ j (hj : j < PREFERRED_MODELS.length), j < i →
      PREFERRED_MODELS.get ⟨j, hj⟩ ∉ available) :
    (trial_order available).head? = some (PREFERRED_MODELS.get ⟨i, hi⟩) := by
  have hne : available ≠ [] := List.ne_nil_of_mem hmem
  have hfind : PREFERRED_MODELS.find? (fun m => decide (m ∈ available)) =
      some (PREFERRED_MODELS.get ⟨i, hi⟩) := by
    apply find?_of_first
    · simpa using hmem
    · intro j hj hji
      simpa using hmin j hj hji
  have hpick : pick_best_model available = PREFERRED_MODELS.get ⟨i, hi⟩ := by
    unfold pick_best_model
    rw [if_pos hne, hfind]
  rw [trial_order_head available, hpick]

/-- Witness for C4: only `"gpt-4o"` (preference position 4) is available,
so it heads the trial order. -/
theorem C4_trial_order_best_first_witness :
    (trial_order ["gpt-4o"]).head? = some "gpt-4o" := by
  have h := C4_trial_order_best_first ["gpt-4o"] 4 (by decide) (by decide)
    (fun j hj hji => by
      match j with
      | 0 => exact (by decide : PREFERRED_MODELS.get ⟨0, by decide⟩ ∉ ["gpt-4o"])
      | 1 => exact (by decide : PREFERRED_MODELS.get ⟨1, by decide⟩ ∉ ["gpt-4o"])
      | 2 => exact (by decide : PREFERRED_MODELS.get ⟨2, by decide⟩ ∉ ["gpt-4o"])
      | 3 => exact (by decide : PREFERRED_MODELS.get ⟨3, by decide⟩ ∉ ["gpt-4o"]))
  exact h.trans (by decide)

/-- Claim C5: with an empty availability set the trial order is exactly
`PREFERRED_MODELS` in original order. -/
theorem C5_trial_order_empty_availability :
    trial_order [] = PREFERRED_MODELS := by decide

/-- Unfolding equation for `detect_emotion`. -/
theorem detect_emotion_eq (text : String) :
    detect_emotion text =
      match EMOTION_LEX.find? (fun p => emoHit (lowerStr text) p.2) with
      | some p => p.1
      | none => "neutral" := rfl

/-- Claim C7: `detect_emotion` (a pure function, hence deterministic and
side-effect free) always answers from the closed label set; it answers
`"neutral"` exactly when no keyword of any entry is contained in the
lowercased input; and it answers with the label of the first matching
`EMOTION_LEX` entry. -/
theorem C7_detect_emotion_classifier (text : String) :
    detect_emotion text ∈ ["anxiety", "sadness", "anger", "shame", "calm", "neutral"] ∧
    (detect_emotion text = "neutral" ↔
      ∀ p ∈ EMOTION_LEX, ∀ k ∈ p.2, strContains (lowerStr text) k = false) ∧
    (∀ (i : Nat) (hi : i < EMOTION_LEX.length),
      emoHit (lowerStr text) (EMOTION_LEX.get ⟨i, hi⟩).2 = true →
      (∀ j (hj : j < EMOTION_LEX.length), j < i →
        emoHit (lowerStr text) (EMOTION_LEX.get ⟨j, hj⟩).2 = false) →
      detect_emotion text = (EMOTION_LEX.get ⟨i, hi⟩).1) := by
  have hlabels : ∀ p ∈ EMOTION_LEX, p.1 ∈ ["anxiety", "sadness", "anger", "shame", "calm"] := by
    decide
  refine ⟨?_, ⟨?_, ?_⟩, ?_⟩
  · cases hf : EMOTION_LEX.find? (fun p => emoHit (lowerStr text) p.2) with
    | some p =>
      have hp := hlabels p (List.mem_of_find?_eq_some hf)
      have hdet : detect_emotion text = p.1 := by rw [detect_emotion_eq, hf]
      rw [hdet]
      simp only [List.mem_cons] at hp ⊢
      tauto
    | none =>
      have hdet : detect_emotion text = "neutral" := by rw [detect_emotion_eq, hf]
      rw [hdet]
      simp
  · intro hneutral p hp k hk
    cases hf : EMOTION_LEX.find? (fun p => emoHit (lowerStr text) p.2) with
    | some q =>
      have hq := hlabels q (List.mem_of_find?_eq_some hf)
      have : detect_emotion text = q.1 := by rw [detect_emotion_eq, hf]
      rw [hneutral] at this
      rw [← this] at hq
      simp at hq
    | none =>
      have := List.find?_eq_none.mp hf p hp
      simp only [emoHit, List.any_eq_true, not_exists] at this
      push_neg at this
      have hk2 := this k hk
      simpa using hk2
  · intro hall
    have hnone : EMOTION_LEX.find? (fun p => emoHit (lowerStr text) p.2) = none := by
      apply List.find?_eq_none.mpr
      intro p hp
      have := hall p hp
      simp only [emoHit, List.any_eq_true]
      push_neg
      intro k hk
      simp [this k hk]
    rw [detect_emotion_eq, hnone]
  · intro i hi hp hmin
    have hf := find?_of_first (fun p => emoHit (lowerStr text) p.2) EMOTION_LEX i hi
      (by simpa using hp) (fun j hj hji => by simpa using hmin j hj hji)
    rw [detect_emotion_eq, hf]

/-- Witness for C7: `"panic"` matches the first entry (anxiety) of
`EMOTION_LEX`. -/
theorem C7_detect_emotion_classifier_witness :
    detect_emotion "I feel panic today" = "anxiety" := by
  have h := (C7_detect_emotion_classifier "I feel panic today").2.2 0 (by decide)
    (by decide) (fun j hj hji => absurd hji (by omega))
  exact h.trans (by decide)

/-- Claim C8: the risk score of `analyze_intent_and_risk` always lies in
`[0, 5]`; and at risk at least 3, whenever the routed pool contains a
somatic-first key, every candidate `choose_intervention` can return is a
somatic-first key. -/
theorem C8_risk_cap_and_somatic_bias :
    (∀ text, 0 ≤ (analyze_intent_and_risk text).2 ∧ (analyze_intent_and_risk text).2 ≤ 5) ∧
    (∀ (emotion intent : String) (risk : Int), 3 ≤ risk →
      (∃ k, k ∈ route_pool emotion intent ∧ k ∈ somatic_first) →
      ∀ k ∈ choose_intervention_candidates emotion intent risk, k ∈ somatic_first) := by
  constructor
  · intro text
    unfold analyze_intent_and_risk
    simp only []
    constructor
    · apply le_min _ (by norm_num)
      split_ifs <;> omega
    · exact min_le_right _ _
  · intro emotion intent risk hrisk ⟨k0, hk0, hk0s⟩ k hk
    unfold choose_intervention_candidates at hk
    rw [if_pos hrisk] at hk
    have hpri : k0 ∈ (route_pool emotion intent).filter (fun k => decide (k ∈ somatic_first)) :=
      List.mem_filter.mpr ⟨hk0, by simpa using hk0s⟩
    rw [if_pos (List.ne_nil_of_mem hpri)] at hk
    have := (List.mem_filter.mp hk).2
    simpa using this

/-- Witness for C8 at a risky message and the anger/venting pool. -/
theorem C8_risk_cap_and_somatic_bias_witness :
    (0 ≤ (analyze_intent_and_risk "i want to disappear").2 ∧
      (analyze_intent_and_risk "i want to disappear").2 ≤ 5) ∧
    ∀ k ∈ choose_intervention_candidates "anger" "venting" 3, k ∈ somatic_first :=
  ⟨C8_risk_cap_and_somatic_bias.1 "i want to disappear",
   C8_risk_cap_and_somatic_bias.2 "anger" "venting" 3 (by norm_num)
     ⟨"DBT_TIPP", by decide, by decide⟩⟩

/-- Association-list lookup either fails or answers with the value of some
stored pair. -/
theorem lookup_cases {β : Type} (key : String) :
    ∀ l : List (String × β),
      List.lookup key l = none ∨ ∃ p ∈ l, List.lookup key l = some p.2
  | [] => Or.inl rfl
  | (a, b) :: t => by
    by_cases h : key == a
    · exact Or.inr ⟨(a, b), by simp, by simp [List.lookup, h]⟩
    · simp only [List.lookup, Bool.not_eq_true] at h ⊢
      rw [h]
      rcases lookup_cases key t with h2 | ⟨p, hp, h2⟩
      · exact Or.inl h2
      · exact Or.inr ⟨p, by simp [hp], h2⟩

/-- Every pool `route_pool` can produce — looked-up or defaulted — is
non-empty and consists of `INTERVENTIONS` keys. -/
theorem route_pool_good (emotion intent : String) :
    route_pool emotion intent ≠ [] ∧
    ∀ k ∈ route_pool emotion intent, (List.lookup k INTERVENTIONS).isSome = true := by
  have hneutral : ∀ q ∈ neutral_router, q.2 ≠ [] ∧
      ∀ k ∈ q.2, (List.lookup k INTERVENTIONS).isSome = true := by decide
  have hrouter : ∀ p ∈ INTERVENTION_ROUTER, ∀ q ∈ p.2, q.2 ≠ [] ∧
      ∀ k ∈ q.2, (List.lookup k INTERVENTIONS).isSome = true := by decide
  have hventing : neutral_venting ≠ [] ∧
      ∀ k ∈ neutral_venting, (List.lookup k INTERVENTIONS).isSome = true := by decide
  unfold route_pool
  rcases lookup_cases emotion INTERVENTION_ROUTER with h | ⟨p, hp, h⟩
  · rw [h]
    simp only [Option.getD_none]
    rcases lookup_cases intent neutral_router with h2 | ⟨q, hq, h2⟩
    · rw [h2]; simpa using hventing
    · rw [h2]
      simpa using hneutral q hq
  · rw [h]
    simp only [Option.getD_some]
    rcases lookup_cases intent p.2 with h2 | ⟨q, hq, h2⟩
    · rw [h2]; simpa using hventing
    · rw [h2]
      simpa using hrouter p hp q hq

/-- Claim C9: for arbitrary emotion and intent strings and any integer
risk score, `choose_intervention` draws from a non-empty list of
`INTERVENTIONS` keys, so the subsequent table lookup cannot fail. -/
theorem C9_choose_intervention_total (emotion intent : String) (risk : Int) :
    choose_intervention_candidates emotion intent risk ≠ [] ∧
    ∀ k ∈ choose_intervention_candidates emotion intent risk,
      (List.lookup k INTERVENTIONS).isSome = true := by
  obtain ⟨hne, hkeys⟩ := route_pool_good emotion intent
  unfold choose_intervention_candidates
  by_cases hr : 3 ≤ risk
  · rw [if_pos hr]
    by_cases hpri : (route_pool emotion intent).filter (fun k => decide (k ∈ somatic_first)) = []
    · rw [if_neg (by simpa using hpri)]
      exact ⟨hne, hkeys⟩
    · rw [if_pos (by simpa using hpri)]
      refine ⟨by simpa using hpri, ?_⟩
      intro k hk
      exact hkeys k (List.mem_filter.mp hk).1
  · rw [if_neg hr]
    exact ⟨hne, hkeys⟩

/-- Membership survives `addIfAbsent`. -/
theorem mem_addIfAbsent {l : List String} {x : String} (y : String) (h : x ∈ l) :
    x ∈ addIfAbsent l y := by
  unfold addIfAbsent
  split
  · exact h
  · exact List.mem_append_left _ h

/-- Membership survives a guarded `addIfAbsent`. -/
theorem mem_cond_add {l : List String} {x y : String} {c : Prop} [Decidable c]
    (h : x ∈ l) : x ∈ (if c then addIfAbsent l y else l) := by
  split
  · exact mem_addIfAbsent y h
  · exact h

/-- Claim C10: `infer_case_formulation` never drops an entry: every theme,
pattern and hypothesis of the previous formulation is still present in the
result (the previous structure itself is untouched — the function builds a
fresh value from copies). -/
theorem C10_case_formulation_monotone (prev : CaseFormulation)
    (text emotion intent x : String) :
    (x ∈ prev.themes →
      x ∈ (infer_case_formulation text emotion intent (some prev)).themes) ∧
    (x ∈ prev.patterns →
      x ∈ (infer_case_formulation text emotion intent (some prev)).patterns) ∧
    (x ∈ prev.hypotheses →
      x ∈ (infer_case_formulation text emotion intent (some prev)).hypotheses) := by
  unfold infer_case_formulation
  simp only []
  refine ⟨fun h => ?_, fun h => ?_, fun h => ?_⟩
  · exact mem_cond_add (mem_cond_add (mem_cond_add (mem_cond_add (mem_cond_add
      (List.mem_dedup.mpr h)))))
  · exact mem_cond_add (mem_cond_add (mem_cond_add (mem_cond_add
      (List.mem_dedup.mpr h))))
  · exact mem_cond_add (mem_cond_add (mem_cond_add (List.mem_dedup.mpr h)))

/-- Witness for C10 at a concrete previous formulation. -/
theorem C10_case_formulation_monotone_witness :
    "t0" ∈ (infer_case_formulation "hello there" "calm" "venting"
      (some ⟨["t0"], ["p0"], ["h0"]⟩)).themes :=
  (C10_case_formulation_monotone ⟨["t0"], ["p0"], ["h0"]⟩ "hello there" "calm" "venting"
    "t0").1 (by decide)

/-- `tagChars` written as a cons chain. -/
theorem tagChars_append (d : Char) (b : List Char) :
    tagChars d ++ b = '[' :: 'M' :: 'O' :: 'D' :: 'E' :: ':' :: d :: ']' :: b := rfl

/-- A tag at the very front is recognised. -/
theorem tagAt_tag (d : Char) (b : List Char) (hd : d.isDigit = true) :
    tagAt ('[' :: 'M' :: 'O' :: 'D' :: 'E' :: ':' :: d :: ']' :: b) = some (d.toNat - 48) := by
  simp [tagAt, hd]

/-- Unfolding equation for `findModeTag` on a non-empty list. -/
theorem findModeTag_cons (c : Char) (cs : List Char) :
    findModeTag (c :: cs) =
      match tagAt (c :: cs) with
      | some n => some n
      | none => findModeTag cs := rfl

/-- A recognised head tag decomposes the list. -/
theorem tagAt_decomp (l : List Char) (n : Nat) (h : tagAt l = some n) :
    ∃ d b, d.isDigit = true ∧ l = tagChars d ++ b ∧ n = d.toNat - 48 := by
  unfold tagAt at h
  split at h
  · rename_i c0 c1 c2 c3 c4 c5 c6 c7 rest
    split at h
    · rename_i hcond
      obtain ⟨h0, h1, h2, h3, h4, h5, h6, h7⟩ := hcond
      refine ⟨c6, rest, h6, ?_, (Option.some.inj h).symm⟩
      subst h0 h1 h2 h3 h4 h5 h7
      rfl
    · exact absurd h (by simp)
  · exact absurd h (by simp)

/-- A list that exhibits a tag decomposition makes `findModeTag` succeed. -/
theorem containsTag_findModeTag :
    ∀ (a : List Char) (d : Char) (b : List Char), d.isDigit = true →
      ∃ n, findModeTag (a ++ tagChars d ++ b) = some n
  | [], d, b, hd => by
    refine ⟨d.toNat - 48, ?_⟩
    rw [List.nil_append, tagChars_append, findModeTag_cons, tagAt_tag d b hd]
  | c :: a', d, b, hd => by
    have hl : (c :: a') ++ tagChars d ++ b = c :: (a' ++ tagChars d ++ b) := by simp
    rw [hl, findModeTag_cons]
    cases h : tagAt (c :: (a' ++ tagChars d ++ b)) with
    | some n => exact ⟨n, rfl⟩
    | none =>
      obtain ⟨n, hn⟩ := containsTag_findModeTag a' d b hd
      exact ⟨n, hn⟩

/-- When `findModeTag` fails, no tag occurs in the text. -/
theorem not_containsTag_of_findModeTag (l : List Char) (h : findModeTag l = none) :
    ¬ ContainsTag l := by
  rintro ⟨a, d, b, hd, rfl⟩
  obtain ⟨n, hn⟩ := containsTag_findModeTag a d b hd
  rw [hn] at h
  cases h

/-- `findModeTag` answers the digit of the first tag: a decomposition whose
prefix region contains no tag determines its result. -/
theorem findModeTag_of_first :
    ∀ (a : List Char) (d : Char) (b : List Char), d.isDigit = true →
      ¬ ContainsTag ((a ++ tagChars d ++ b).take (a.length + 7)) →
      findModeTag (a ++ tagChars d ++ b) = some (d.toNat - 48)
  | [], d, b, hd, _ => by
    rw [List.nil_append, tagChars_append, findModeTag_cons, tagAt_tag d b hd]
  | c :: a', d, b, hd, hno => by
    have hl : (c :: a') ++ tagChars d ++ b = c :: (a' ++ tagChars d ++ b) := by simp
    rw [hl] at hno ⊢
    have hlen : a'.length + 1 + 7 = (a'.length + 7) + 1 := by omega
    rw [List.length_cons, hlen, List.take_succ_cons] at hno
    rw [findModeTag_cons]
    have htag : tagAt (c :: (a' ++ tagChars d ++ b)) = none := by
      cases h : tagAt (c :: (a' ++ tagChars d ++ b)) with
      | none => rfl
      | some n =>
        exfalso
        obtain ⟨d', b', hd', heq, _⟩ := tagAt_decomp _ _ h
        apply hno
        refine ⟨[], d', b'.take a'.length, hd', ?_⟩
        have hstep : c :: ((a' ++ tagChars d ++ b).take (a'.length + 7)) =
            (c :: (a' ++ tagChars d ++ b)).take (a'.length + 8) := by
          rw [show a'.length + 8 = (a'.length + 7) + 1 by omega, List.take_succ_cons]
        rw [hstep, heq,
          show a'.length + 8 = (tagChars d').length + a'.length by simp [tagChars]; omega,
          List.take_append]
        simp
    rw [htag]
    show findModeTag (a' ++ tagChars d ++ b) = some (d.toNat - 48)
    apply findModeTag_of_first a' d b hd
    rintro ⟨u, e, v, he, hu⟩
    apply hno
    exact ⟨c :: u, e, v, he, by rw [hu]; simp⟩

/-- When `findModeTag` succeeds, a tag occurs in the text. -/
theorem containsTag_of_findModeTag :
    ∀ (l : List Char) (n : Nat), findModeTag l = some n → ContainsTag l
  | [], _, h => by cases h
  | c :: cs, n, h => by
    rw [findModeTag_cons] at h
    cases ht : tagAt (c :: cs) with
    | some m =>
      obtain ⟨d, b, hd, heq, _⟩ := tagAt_decomp _ _ ht
      exact ⟨[], d, b, hd, by simpa using heq⟩
    | none =>
      rw [ht] at h
      obtain ⟨a, d, b, hd, heq⟩ := containsTag_of_findModeTag cs n h
      exact ⟨c :: a, d, b, hd, by rw [heq]; simp⟩

/-- Claim C6: the tagged-output extractor (modelled from the spec) returns
the tag-stripped, whitespace-trimmed text together with the digit of the
first `[MODE:digit]` tag when one is present, and the trimmed text
unchanged together with the previous mode id when none is; including the
claim's concrete examples. -/
theorem C6_extract_mode_behavior :
    extract_mode "hello [MODE:4]" 2 = ("hello", 4) ∧
    extract_mode "just talking" 6 = ("just talking", 6) ∧
    (∀ (raw : String) (prev : Nat), ¬ ContainsTag raw.data →
      extract_mode raw prev = (trimString raw, prev)) ∧
    (∀ (raw : String) (prev : Nat) (d : Char), FirstTag raw.data d →
      extract_mode raw prev = (String.mk (trimChars (stripTags raw.data)), d.toNat - 48)) := by
  refine ⟨by decide, by decide, ?_, ?_⟩
  · intro raw prev hno
    have hn : findModeTag raw.data = none := by
      cases h : findModeTag raw.data with
      | none => rfl
      | some n => exact absurd (containsTag_of_findModeTag _ n h) hno
    unfold extract_mode
    rw [hn]
    rfl
  · intro raw prev d hfirst
    obtain ⟨a, b, hd, hl, hno⟩ := hfirst
    rw [hl] at hno
    have hn : findModeTag raw.data = some (d.toNat - 48) := by
      rw [hl]
      exact findModeTag_of_first a d b hd hno
    unfold extract_mode
    rw [hn]

/-- Witness for C6 on the two-tag example: the first tag decides the mode,
both tags are stripped, interior spacing is kept. -/
theorem C6_extract_mode_behavior_witness :
    extract_mode "a [MODE:1] b [MODE:3]" 0 = ("a  b", 1) := by
  have h := C6_extract_mode_behavior.2.2.2 "a [MODE:1] b [MODE:3]" 0 '1'
    ⟨['a', ' '], " b [MODE:3]".data, by decide, by decide,
     not_containsTag_of_findModeTag _ (by decide)⟩
  exact h.trans (by decide)
